import Mathlib

/-!
Shallow embedding of `src/backend/routes/starredRestaurants.js`: an Express
sub-router exposing CRUD operations over an in-memory list of starred
restaurants, joined at read time against the external read-only catalog
`ALL_RESTAURANTS` (from `./restaurants`, modelled here as a parameter `C`).
Machine state is the mutable list `STARRED_RESTAURANTS : List StarredRecord`;
each handler becomes a pure function from the state (and request data) to a
response together with the post-state.
-/

/-- A catalog entry of `ALL_RESTAURANTS` (external, read-only). -/
structure Restaurant where
  id : String
  name : String
deriving Repr, DecidableEq

/-- A record of the `STARRED_RESTAURANTS` list. -/
structure StarredRecord where
  id : String
  restaurantId : String
  comment : String
deriving Repr, DecidableEq

/-- The joined projection `{id, comment, name}` returned by the read endpoints. -/
structure StarredView where
  id : String
  comment : String
  name : String
deriving Repr, DecidableEq

/-- The seed value of `STARRED_RESTAURANTS` (lines 10-21 of the source). -/
def STARRED_RESTAURANTS : List StarredRecord :=
  [ ⟨"a7272cd9-26fb-44b5-8d53-9781f55175a1",
     "869c848c-7a58-4ed6-ab88-72ee2e8e677c",
     "Best pho in NYC"⟩,
    ⟨"8df59b21-2152-4f9b-9200-95c19aa88226",
     "e8036613-4b72-46f6-ab5e-edd2fc7c4fe4",
     "Their lunch special is the best!"⟩ ]

/-- `ALL_RESTAURANTS.find(r => r.id === rid)`. -/
def findRestaurant (C : List Restaurant) (rid : String) : Option Restaurant :=
  C.find? (fun r => r.id == rid)

/-- The body of the `map` callback in `GET /` (lines 31-43): look the record's
`restaurantId` up in the catalog and project `{id, comment, name}`.  When the
lookup misses, the JavaScript reads `restaurant.name` of `undefined` and the
request dies with a `TypeError`; that error branch is `none` here. -/
def joinStarred (C : List Restaurant) (s : StarredRecord) : Option StarredView :=
  match findRestaurant C s.restaurantId with
  | none => none
  | some r => some ⟨s.id, s.comment, r.name⟩

/-- `GET /` (lines 26-46): join every starred record with the catalog.  A single
failed lookup aborts the whole request (`none`). -/
def listStarred (C : List Restaurant) : List StarredRecord → Option (List StarredView)
  | [] => some []
  | s :: rest =>
    match joinStarred C s, listStarred C rest with
    | some v, some vs => some (v :: vs)
    | _, _ => none

/-- The `GET /` handler: reads the state, never writes it. -/
def listHandler (C : List Restaurant) (S : List StarredRecord) :
    Option (List StarredView) × List StarredRecord :=
  (listStarred C S, S)

/-- Outcome of `GET /:id`. -/
inductive GetResult where
  | notFound
  | ok (v : StarredView)
deriving Repr, DecidableEq

/-- `GET /:id` (lines 58-75): find the starred record by `id` (404 when absent),
then its catalog entry (404 when absent), else return the joined view. -/
def getStarred (C : List Restaurant) (S : List StarredRecord) (id : String) :
    GetResult :=
  match S.find? (fun r => r.id == id) with
  | none => GetResult.notFound
  | some sr =>
    match findRestaurant C sr.restaurantId with
    | none => GetResult.notFound
    | some r => GetResult.ok ⟨sr.id, sr.comment, r.name⟩

/-- The `GET /:id` handler: reads the state, never writes it. -/
def getHandler (C : List Restaurant) (S : List StarredRecord) (id : String) :
    GetResult × List StarredRecord :=
  (getStarred C S id, S)

/-- Response and post-state of `POST /`. -/
structure CreateResult where
  status : Nat
  body : Option StarredRecord
  state : List StarredRecord
deriving Repr, DecidableEq

/-- `POST /` (lines 89-111): 404 when `restaurantId` is not in the catalog,
409 when some record already stars it, else push `{id: uuidv4(), restaurantId,
comment: comment || ''}` and answer 201 with the raw new record.  The random
`uuidv4()` value is the parameter `freshId`; the request body's optional
`comment` is `Option String` and `comment || ''` is `Option.getD _ ""`. -/
def createStarred (C : List Restaurant) (S : List StarredRecord)
    (freshId : String) (restaurantId : String) (comment : Option String) :
    CreateResult :=
  match findRestaurant C restaurantId with
  | none => ⟨404, none, S⟩
  | some _ =>
    if S.any (fun r => r.restaurantId == restaurantId) then ⟨409, none, S⟩
    else
      ⟨201, some ⟨freshId, restaurantId, comment.getD ""⟩,
        S ++ [⟨freshId, restaurantId, comment.getD ""⟩]⟩

/-- Response and post-state of `DELETE /:id`. -/
structure DeleteResult where
  status : Nat
  state : List StarredRecord
deriving Repr, DecidableEq

/-- `DELETE /:id` (lines 121-130): keep the records whose `id` differs; when the
length did not shrink answer 404 leaving the state alone, else commit the
filtered list and answer 200. -/
def deleteStarred (S : List StarredRecord) (id : String) : DeleteResult :=
  let newList := S.filter (fun r => r.id != id)
  if newList.length == S.length then ⟨404, S⟩ else ⟨200, newList⟩

/-- Replace the `comment` of the first record whose `id` matches, in place. -/
def setCommentFirst : List StarredRecord → String → String → List StarredRecord
  | [], _, _ => []
  | r :: rs, id, c =>
    if r.id == id then ⟨r.id, r.restaurantId, c⟩ :: rs
    else r :: setCommentFirst rs id c

/-- Modelled from the spec: Feature 10 (updating the comment of a starred
restaurant, lines 132-140 of the source) exists only as a step-by-step comment
outline with no executable body, so the operation is taken from spec section
4.1: find the record in `S` with matching `id`; if absent fail with 404 leaving
the state alone; otherwise replace its `comment` field in place and answer
200. -/
def updateComment (S : List StarredRecord) (id : String) (c : String) :
    Nat × List StarredRecord :=
  match S.find? (fun r => r.id == id) with
  | none => (404, S)
  | some _ => (200, setCommentFirst S id c)

/-- A state-mutating request against the router: `POST /` (with the `uuidv4()`
draw made explicit) or `DELETE /:id`. -/
inductive Op where
  | create (freshId restaurantId : String) (comment : Option String)
  | del (id : String)
deriving Repr, DecidableEq

/-- Post-state of one mutating request. -/
def applyOp (C : List Restaurant) (S : List StarredRecord) : Op → List StarredRecord
  | Op.create f rid c => (createStarred C S f rid c).state
  | Op.del id => (deleteStarred S id).state

/-- Post-state of a sequence of mutating requests. -/
def runOps (C : List Restaurant) (S : List StarredRecord) : List Op → List StarredRecord
  | [] => S
  | op :: ops => runOps C (applyOp C S op) ops

/-- No two records of `S` star the same restaurant. -/
def noDupRestaurantIds (S : List StarredRecord) : Prop :=
  (S.map (fun r => r.restaurantId)).Nodup

/-- A catalog holding an entry for the first seed record but none for the
second: the second seed record dangles. -/
def SEED_CATALOG_MISSING_ONE : List Restaurant :=
  [ ⟨"869c848c-7a58-4ed6-ab88-72ee2e8e677c", "Pho Spot"⟩ ]

/-- A catalog holding an entry for every seed record. -/
def SEED_CATALOG_FULL : List Restaurant :=
  [ ⟨"869c848c-7a58-4ed6-ab88-72ee2e8e677c", "Pho Spot"⟩,
    ⟨"e8036613-4b72-46f6-ab5e-edd2fc7c4fe4", "Lunch Corner"⟩ ]

theorem createStarred_404 (C : List Restaurant) (S : List StarredRecord)
    (f rid : String) (c : Option String) (h : ∀ e ∈ C, e.id ≠ rid) :
    createStarred C S f rid c = ⟨404, none, S⟩ := by
  have hfind : findRestaurant C rid = none := by
    simp only [findRestaurant, List.find?_eq_none]
    intro e he
    simpa using h e he
  simp [createStarred, hfind]

theorem findRestaurant_mem (C : List Restaurant) (rid : String)
    (h : ∃ e ∈ C, e.id = rid) :
    ∃ e, findRestaurant C rid = some e ∧ e ∈ C ∧ e.id = rid := by
  obtain ⟨e, he, hid⟩ := h
  have : (C.find? (fun r => r.id == rid)).isSome := by
    rw [List.find?_isSome]
    exact ⟨e, he, by simpa using hid⟩
  obtain ⟨e', he'⟩ := Option.isSome_iff_exists.mp this
  refine ⟨e', he', List.mem_of_find?_eq_some he', ?_⟩
  have := List.find?_some he'
  simpa using this

theorem createStarred_409 (C : List Restaurant) (S : List StarredRecord)
    (f rid : String) (c : Option String) (hc : ∃ e ∈ C, e.id = rid)
    (hs : ∃ r ∈ S, r.restaurantId = rid) :
    createStarred C S f rid c = ⟨409, none, S⟩ := by
  obtain ⟨e, hfind, -, -⟩ := findRestaurant_mem C rid hc
  have hany : S.any (fun r => r.restaurantId == rid) = true := by
    rw [List.any_eq_true]
    obtain ⟨r, hr, hrid⟩ := hs
    exact ⟨r, hr, by simpa using hrid⟩
  simp [createStarred, hfind, hany]

theorem createStarred_success_eq (C : List Restaurant) (S : List StarredRecord)
    (f rid : String) (c : Option String) (hc : ∃ e ∈ C, e.id = rid)
    (hs : ∀ r ∈ S, r.restaurantId ≠ rid) :
    createStarred C S f rid c =
      ⟨201, some ⟨f, rid, c.getD ""⟩, S ++ [⟨f, rid, c.getD ""⟩]⟩ := by
  obtain ⟨e, hfind, -, -⟩ := findRestaurant_mem C rid hc
  have hany : S.any (fun r => r.restaurantId == rid) = false := by
    rw [List.any_eq_false]
    intro r hr
    simpa using hs r hr
  simp [createStarred, hfind, hany]

/-- Claim C4: Create is atomic on failure.  When the requested `restaurantId`
is not in the catalog, the response is 404 with no body and the state is
untouched; when the catalog has it but some record of `S` already stars it,
the response is 409 with no body and the state is untouched. -/
theorem claim_create_failure_atomic (C : List Restaurant) (S : List StarredRecord)
    (f rid : String) (c : Option String) :
    ((∀ e ∈ C, e.id ≠ rid) → createStarred C S f rid c = ⟨404, none, S⟩) ∧
    ((∃ e ∈ C, e.id = rid) → (∃ r ∈ S, r.restaurantId = rid) →
      createStarred C S f rid c = ⟨409, none, S⟩) :=
  ⟨createStarred_404 C S f rid c,
   fun hc hs => createStarred_409 C S f rid c hc hs⟩

/-- Witness for C4 at concrete inputs: an unknown `restaurantId` gives 404 and
an already-starred one gives 409, the state unchanged both times. -/
theorem claim_create_failure_atomic_witness :
    createStarred [⟨"r1", "Pho Palace"⟩] STARRED_RESTAURANTS "f1" "zzz" none =
      ⟨404, none, STARRED_RESTAURANTS⟩ ∧
    createStarred [⟨"869c848c-7a58-4ed6-ab88-72ee2e8e677c", "Pho Palace"⟩]
        STARRED_RESTAURANTS "f1" "869c848c-7a58-4ed6-ab88-72ee2e8e677c" none =
      ⟨409, none, STARRED_RESTAURANTS⟩ := by
  constructor
  · exact (claim_create_failure_atomic _ _ _ _ _).1 (by decide)
  · exact (claim_create_failure_atomic _ _ _ _ _).2 (by decide) (by decide)

/-- Claim C3: when `restaurantId` is in the catalog and not yet starred, Create
appends exactly one record `{id := freshId, restaurantId, comment}` to the end
of `S` (prior elements and their order untouched), the comment defaulting to
the empty string when the body carries none, and answers 201 with that raw
record. -/
theorem claim_create_success (C : List Restaurant) (S : List StarredRecord)
    (f rid : String) (c : Option String) (hc : ∃ e ∈ C, e.id = rid)
    (hs : ∀ r ∈ S, r.restaurantId ≠ rid) :
    createStarred C S f rid c =
      ⟨201, some ⟨f, rid, c.getD ""⟩, S ++ [⟨f, rid, c.getD ""⟩]⟩ :=
  createStarred_success_eq C S f rid c hc hs

/-- Witness for C3 at concrete inputs, with the comment absent so that it
defaults to the empty string. -/
theorem claim_create_success_witness :
    createStarred [⟨"r1", "Pho Palace"⟩] STARRED_RESTAURANTS "f1" "r1" none =
      ⟨201, some ⟨"f1", "r1", ""⟩, STARRED_RESTAURANTS ++ [⟨"f1", "r1", ""⟩]⟩ :=
  claim_create_success _ _ _ _ _ (by decide) (by decide)

/-- Claim C8: after a successful Create (catalog hit, not already starred,
fresh identifier), Get-by-id on the returned id succeeds and returns a view
whose `name` is the catalog entry's name for that `restaurantId`. -/
theorem claim_create_then_get (C : List Restaurant) (S : List StarredRecord)
    (f rid : String) (c : Option String)
    (hfresh : ∀ r ∈ S, r.id ≠ f)
    (hc : ∃ e ∈ C, e.id = rid)
    (hs : ∀ r ∈ S, r.restaurantId ≠ rid) :
    ∃ e, findRestaurant C rid = some e ∧ e.id = rid ∧
      (createStarred C S f rid c).status = 201 ∧
      (createStarred C S f rid c).body = some ⟨f, rid, c.getD ""⟩ ∧
      getStarred C (createStarred C S f rid c).state f =
        GetResult.ok ⟨f, c.getD "", e.name⟩ := by
  obtain ⟨e, hfind, hmem, hid⟩ := findRestaurant_mem C rid hc
  have hsucc := createStarred_success_eq C S f rid c hc hs
  refine ⟨e, hfind, hid, by rw [hsucc], by rw [hsucc], ?_⟩
  rw [hsucc]
  have hnone : S.find? (fun r => r.id == f) = none := by
    rw [List.find?_eq_none]
    intro r hr
    simpa using hfresh r hr
  simp only [getStarred]
  rw [List.find?_append, hnone]
  simp [hfind]

/-- Witness for C8 at concrete inputs: create a star for `r1`, then get it
back by the fresh id. -/
theorem claim_create_then_get_witness :
    ∃ e, findRestaurant [⟨"r1", "Pho Palace"⟩] "r1" = some e ∧ e.id = "r1" ∧
      (createStarred [⟨"r1", "Pho Palace"⟩] STARRED_RESTAURANTS "f1" "r1"
        (some "Great!")).status = 201 ∧
      (createStarred [⟨"r1", "Pho Palace"⟩] STARRED_RESTAURANTS "f1" "r1"
        (some "Great!")).body = some ⟨"f1", "r1", "Great!"⟩ ∧
      getStarred [⟨"r1", "Pho Palace"⟩]
        (createStarred [⟨"r1", "Pho Palace"⟩] STARRED_RESTAURANTS "f1" "r1"
          (some "Great!")).state "f1" =
        GetResult.ok ⟨"f1", "Great!", "Pho Palace"⟩ := by
  obtain ⟨e, h1, h2, h3, h4, h5⟩ :=
    claim_create_then_get [⟨"r1", "Pho Palace"⟩] STARRED_RESTAURANTS "f1" "r1"
      (some "Great!") (by decide) (by decide) (by decide)
  have he : e = ⟨"r1", "Pho Palace"⟩ := by
    have : findRestaurant [⟨"r1", "Pho Palace"⟩] "r1" =
        some ⟨"r1", "Pho Palace"⟩ := by decide
    rw [this] at h1
    exact (Option.some_inj.mp h1).symm
  subst he
  exact ⟨_, h1, h2, h3, h4, h5⟩

theorem noDup_applyOp (C : List Restaurant) (S : List StarredRecord) (op : Op)
    (h : noDupRestaurantIds S) : noDupRestaurantIds (applyOp C S op) := by
  cases op with
  | create f rid c =>
    show noDupRestaurantIds (createStarred C S f rid c).state
    cases hfind : findRestaurant C rid with
    | none =>
      simp only [createStarred, hfind]
      exact h
    | some e =>
      simp only [createStarred, hfind]
      split
      · exact h
      · rename_i hany
        rw [Bool.not_eq_true] at hany
        have hnot : ∀ r ∈ S, r.restaurantId ≠ rid := by
          intro r hr
          have := List.any_eq_false.mp hany r hr
          simpa using this
        show noDupRestaurantIds (S ++ [⟨f, rid, c.getD ""⟩])
        unfold noDupRestaurantIds at h ⊢
        rw [List.map_append, List.nodup_append]
        refine ⟨h, List.nodup_singleton _, ?_⟩
        intro a ha hb
        simp only [List.map_cons, List.map_nil, List.mem_singleton] at hb
        subst hb
        obtain ⟨r, hr, hrid⟩ := List.mem_map.mp ha
        exact hnot r hr hrid
  | del id =>
    show noDupRestaurantIds (deleteStarred S id).state
    simp only [deleteStarred]
    split
    · exact h
    · show noDupRestaurantIds (S.filter (fun r => r.id != id))
      unfold noDupRestaurantIds at h ⊢
      exact List.Nodup.sublist (List.Sublist.map _ (List.filter_sublist S)) h

theorem runOps_noDup (C : List Restaurant) (ops : List Op) :
    ∀ S : List StarredRecord, noDupRestaurantIds S →
      noDupRestaurantIds (runOps C S ops) := by
  induction ops with
  | nil =>
    intro S h
    exact h
  | cons op ops ih =>
    intro S h
    exact ih _ (noDup_applyOp C S op h)

/-- Claim C1: starting from the seed state, no sequence of Create/Delete
requests ever leaves two records with the same `restaurantId` in the list:
Create refuses with 409 when the restaurant is already starred (so it never
introduces a duplicate) and Delete only removes records. -/
theorem claim_no_duplicate_restaurantIds (C : List Restaurant) (ops : List Op) :
    noDupRestaurantIds (runOps C STARRED_RESTAURANTS ops) := by
  apply runOps_noDup
  show (STARRED_RESTAURANTS.map (fun r => r.restaurantId)).Nodup
  decide

/-- Claim C5: Get-by-id answers 404 when no record carries the id, 404 when
the found record's `restaurantId` misses the catalog, and otherwise the view
`{id, comment, name}` with the name read from the catalog entry; the state is
never modified. -/
theorem claim_get_by_id (C : List Restaurant) (S : List StarredRecord)
    (id : String) :
    (getHandler C S id).2 = S ∧
    ((∀ r ∈ S, r.id ≠ id) → getStarred C S id = GetResult.notFound) ∧
    (∀ sr, S.find? (fun r => r.id == id) = some sr →
      ((∀ e ∈ C, e.id ≠ sr.restaurantId) → getStarred C S id = GetResult.notFound) ∧
      (∀ e, findRestaurant C sr.restaurantId = some e →
        getStarred C S id = GetResult.ok ⟨sr.id, sr.comment, e.name⟩)) := by
  refine ⟨rfl, ?_, ?_⟩
  · intro h
    have hnone : S.find? (fun r => r.id == id) = none := by
      rw [List.find?_eq_none]
      intro r hr
      simpa using h r hr
    simp [getStarred, hnone]
  · intro sr hsr
    constructor
    · intro h
      have hnone : findRestaurant C sr.restaurantId = none := by
        simp only [findRestaurant, List.find?_eq_none]
        intro e he
        simpa using h e he
      simp [getStarred, hsr, hnone]
    · intro e he
      simp [getStarred, hsr, he]

/-- Witness for C5 at concrete inputs: the first seed record is returned
joined with its catalog name, and an unknown id gives 404. -/
theorem claim_get_by_id_witness :
    getStarred SEED_CATALOG_FULL STARRED_RESTAURANTS
      "a7272cd9-26fb-44b5-8d53-9781f55175a1" =
      GetResult.ok ⟨"a7272cd9-26fb-44b5-8d53-9781f55175a1",
        "Best pho in NYC", "Pho Spot"⟩ ∧
    getStarred SEED_CATALOG_FULL STARRED_RESTAURANTS "nope" =
      GetResult.notFound := by
  constructor
  · exact ((claim_get_by_id SEED_CATALOG_FULL STARRED_RESTAURANTS
      "a7272cd9-26fb-44b5-8d53-9781f55175a1").2.2
      ⟨"a7272cd9-26fb-44b5-8d53-9781f55175a1",
       "869c848c-7a58-4ed6-ab88-72ee2e8e677c", "Best pho in NYC"⟩
      (by decide)).2 ⟨"869c848c-7a58-4ed6-ab88-72ee2e8e677c", "Pho Spot"⟩
      (by decide)
  · exact (claim_get_by_id SEED_CATALOG_FULL STARRED_RESTAURANTS "nope").2.1
      (by decide)

theorem deleteStarred_404_eq (S : List StarredRecord) (id : String)
    (h : ∀ r ∈ S, r.id ≠ id) :
    deleteStarred S id = ⟨404, S⟩ := by
  have heq : S.filter (fun r => r.id != id) = S :=
    List.filter_eq_self.mpr (fun r hr => by simpa using h r hr)
  simp [deleteStarred, heq]

theorem deleteStarred_success_eq (S : List StarredRecord) (id : String)
    (h : ∃ r ∈ S, r.id = id) :
    deleteStarred S id = ⟨200, S.filter (fun r => r.id != id)⟩ := by
  have hlt : (S.filter (fun r => r.id != id)).length < S.length := by
    rw [List.length_filter_lt_length_iff_exists]
    obtain ⟨r, hr, hrid⟩ := h
    exact ⟨r, hr, by simp [hrid]⟩
  have hne : ((S.filter (fun r => r.id != id)).length == S.length) = false := by
    simp [Nat.ne_of_lt hlt]
  simp [deleteStarred, hne]

theorem filter_length_of_nodup (id : String) :
    ∀ S : List StarredRecord, (S.map (fun r => r.id)).Nodup →
      (∃ r ∈ S, r.id = id) →
      (S.filter (fun r => r.id != id)).length + 1 = S.length := by
  intro S
  induction S with
  | nil =>
    intro _ h
    exact absurd h (by simp)
  | cons a rs ih =>
    intro hnd hex
    rw [List.map_cons, List.nodup_cons] at hnd
    by_cases ha : a.id = id
    · have hrest : ∀ r ∈ rs, r.id ≠ id := by
        intro r hr hrid
        exact hnd.1 (List.mem_map.mpr ⟨r, hr, by rw [hrid, ha]⟩)
      have hself : rs.filter (fun r => r.id != id) = rs :=
        List.filter_eq_self.mpr (fun r hr => by simpa using hrest r hr)
      have hpa : (a.id != id) = false := by simp [ha]
      rw [List.filter_cons, hpa]
      simp [hself]
    · have hex' : ∃ r ∈ rs, r.id = id := by
        obtain ⟨r, hr, hrid⟩ := hex
        rcases List.mem_cons.mp hr with h1 | h1
        · exact absurd (h1 ▸ hrid) ha
        · exact ⟨r, h1, hrid⟩
      have hih := ih hnd.2 hex'
      have hpa : (a.id != id) = true := by simp [ha]
      rw [List.filter_cons, hpa, if_pos rfl]
      simp only [List.length_cons]
      omega

/-- Claim C6: Delete-by-id answers 404 leaving the state untouched when no
record carries the id; otherwise (under the id-uniqueness invariant of the
data model) it answers 200, removes exactly one element, keeps the remaining
elements in their relative order (the post-state is a sublist of `S`), and
every non-matching record survives. -/
theorem claim_delete_by_id (S : List StarredRecord) (id : String)
    (hnd : (S.map (fun r => r.id)).Nodup) :
    ((∀ r ∈ S, r.id ≠ id) → deleteStarred S id = ⟨404, S⟩) ∧
    ((∃ r ∈ S, r.id = id) →
      (deleteStarred S id).status = 200 ∧
      (deleteStarred S id).state.length + 1 = S.length ∧
      (deleteStarred S id).state.Sublist S ∧
      ∀ r ∈ S, r.id ≠ id → r ∈ (deleteStarred S id).state) := by
  constructor
  · exact deleteStarred_404_eq S id
  · intro hex
    rw [deleteStarred_success_eq S id hex]
    refine ⟨rfl, filter_length_of_nodup id S hnd hex, List.filter_sublist S, ?_⟩
    intro r hr hne
    exact List.mem_filter.mpr ⟨hr, by simpa using hne⟩

/-- Witness for C6: deleting the first seed record from the seed state. -/
theorem claim_delete_by_id_witness :
    ((STARRED_RESTAURANTS.map (fun r => r.id)).Nodup ∧
     ∃ r ∈ STARRED_RESTAURANTS, r.id = "a7272cd9-26fb-44b5-8d53-9781f55175a1") ∧
    (deleteStarred STARRED_RESTAURANTS
        "a7272cd9-26fb-44b5-8d53-9781f55175a1").status = 200 ∧
    (deleteStarred STARRED_RESTAURANTS
        "a7272cd9-26fb-44b5-8d53-9781f55175a1").state.length + 1 =
      STARRED_RESTAURANTS.length ∧
    (deleteStarred STARRED_RESTAURANTS
        "a7272cd9-26fb-44b5-8d53-9781f55175a1").state.Sublist
      STARRED_RESTAURANTS ∧
    ∀ r ∈ STARRED_RESTAURANTS, r.id ≠ "a7272cd9-26fb-44b5-8d53-9781f55175a1" →
      r ∈ (deleteStarred STARRED_RESTAURANTS
        "a7272cd9-26fb-44b5-8d53-9781f55175a1").state :=
  ⟨⟨by decide, by decide⟩,
   (claim_delete_by_id STARRED_RESTAURANTS
     "a7272cd9-26fb-44b5-8d53-9781f55175a1" (by decide)).2 (by decide)⟩

/-- Claim C10: the delete route has filter semantics: a successful Delete
leaves no record whatsoever with the given id — the post-state is exactly
`S` filtered on a differing id, so even duplicate holders of the id would all
be removed in one call. -/
theorem claim_delete_filter_semantics (S : List StarredRecord) (id : String)
    (h : ∃ r ∈ S, r.id = id) :
    (deleteStarred S id).status = 200 ∧
    (deleteStarred S id).state = S.filter (fun r => r.id != id) ∧
    ∀ r ∈ (deleteStarred S id).state, r.id ≠ id := by
  rw [deleteStarred_success_eq S id h]
  refine ⟨rfl, rfl, ?_⟩
  intro r hr
  have := (List.mem_filter.mp hr).2
  simpa using this

/-- Witness for C10 on a state holding two records with the same id: one
Delete removes both. -/
theorem claim_delete_filter_semantics_witness :
    (∃ r ∈ [(⟨"x", "r1", "a"⟩ : StarredRecord), ⟨"y", "r2", "b"⟩,
        ⟨"x", "r3", "c"⟩], r.id = "x") ∧
    ((deleteStarred [⟨"x", "r1", "a"⟩, ⟨"y", "r2", "b"⟩, ⟨"x", "r3", "c"⟩]
        "x").status = 200 ∧
     (deleteStarred [⟨"x", "r1", "a"⟩, ⟨"y", "r2", "b"⟩, ⟨"x", "r3", "c"⟩]
        "x").state =
       List.filter (fun r => r.id != "x")
         [⟨"x", "r1", "a"⟩, ⟨"y", "r2", "b"⟩, ⟨"x", "r3", "c"⟩] ∧
     ∀ r ∈ (deleteStarred [⟨"x", "r1", "a"⟩, ⟨"y", "r2", "b"⟩,
        ⟨"x", "r3", "c"⟩] "x").state, r.id ≠ "x") :=
  ⟨by decide,
   claim_delete_filter_semantics
     [⟨"x", "r1", "a"⟩, ⟨"y", "r2", "b"⟩, ⟨"x", "r3", "c"⟩] "x" (by decide)⟩

theorem listStarred_total (C : List Restaurant) :
    ∀ S : List StarredRecord, (∀ r ∈ S, ∃ e ∈ C, e.id = r.restaurantId) →
      ∃ out, listStarred C S = some out ∧
        List.Forall₂ (fun s v => ∃ e ∈ C, e.id = s.restaurantId ∧
          v = StarredView.mk s.id s.comment e.name) S out := by
  intro S
  induction S with
  | nil =>
    intro _
    exact ⟨[], rfl, List.Forall₂.nil⟩
  | cons s rest ih =>
    intro h
    obtain ⟨e, hfind, hmem, hid⟩ :=
      findRestaurant_mem C s.restaurantId (h s (List.mem_cons_self s rest))
    obtain ⟨out, hout, hall⟩ := ih (fun r hr => h r (List.mem_cons_of_mem s hr))
    refine ⟨⟨s.id, s.comment, e.name⟩ :: out, ?_, ?_⟩
    · simp [listStarred, joinStarred, hfind, hout]
    · exact List.Forall₂.cons ⟨e, hmem, hid, rfl⟩ hall

/-- Claim C7: when every starred record's `restaurantId` resolves in the
catalog, List returns one view per record — same length as `S`, same order
(`Forall₂` pairs the i-th view with the i-th record), each view carrying the
record's id and comment and the catalog entry's name — and the state is not
modified. -/
theorem claim_list_all (C : List Restaurant) (S : List StarredRecord)
    (h : ∀ r ∈ S, ∃ e ∈ C, e.id = r.restaurantId) :
    (listHandler C S).2 = S ∧
    ∃ out, (listHandler C S).1 = some out ∧ out.length = S.length ∧
      List.Forall₂ (fun s v => ∃ e ∈ C, e.id = s.restaurantId ∧
        v = StarredView.mk s.id s.comment e.name) S out := by
  obtain ⟨out, hout, hall⟩ := listStarred_total C S h
  exact ⟨rfl, out, hout, hall.length_eq.symm, hall⟩

/-- Witness for C7: listing the seed state against a catalog resolving both
seed records. -/
theorem claim_list_all_witness :
    (∀ r ∈ STARRED_RESTAURANTS, ∃ e ∈ SEED_CATALOG_FULL,
      e.id = r.restaurantId) ∧
    ((listHandler SEED_CATALOG_FULL STARRED_RESTAURANTS).2 =
        STARRED_RESTAURANTS ∧
     ∃ out, (listHandler SEED_CATALOG_FULL STARRED_RESTAURANTS).1 = some out ∧
       out.length = STARRED_RESTAURANTS.length ∧
       List.Forall₂ (fun s v => ∃ e ∈ SEED_CATALOG_FULL,
         e.id = s.restaurantId ∧ v = StarredView.mk s.id s.comment e.name)
         STARRED_RESTAURANTS out) :=
  ⟨by decide, claim_list_all SEED_CATALOG_FULL STARRED_RESTAURANTS (by decide)⟩

/-- Claim C9: the join inside List is partial.  Against a catalog that misses
the second seed record's restaurant, that record's lookup yields nothing and
the whole request fails (`none`): the record is not skipped and no NotFound
answer is produced, even though the other record joins fine. -/
theorem claim_list_lookup_dangling :
    (∃ r ∈ STARRED_RESTAURANTS, ∀ e ∈ SEED_CATALOG_MISSING_ONE,
      e.id ≠ r.restaurantId) ∧
    (∃ r ∈ STARRED_RESTAURANTS,
      joinStarred SEED_CATALOG_MISSING_ONE r ≠ none) ∧
    listStarred SEED_CATALOG_MISSING_ONE STARRED_RESTAURANTS = none := by
  refine ⟨?_, ?_, ?_⟩
  · exact ⟨⟨"8df59b21-2152-4f9b-9200-95c19aa88226",
      "e8036613-4b72-46f6-ab5e-edd2fc7c4fe4",
      "Their lunch special is the best!"⟩, by decide, by decide⟩
  · exact ⟨⟨"a7272cd9-26fb-44b5-8d53-9781f55175a1",
      "869c848c-7a58-4ed6-ab88-72ee2e8e677c",
      "Best pho in NYC"⟩, by decide, by decide⟩
  · decide

theorem setCommentFirst_split :
    ∀ S : List StarredRecord, ∀ id c : String, (∃ r ∈ S, r.id = id) →
      ∃ pre r post, S = pre ++ r :: post ∧ r.id = id ∧
        (∀ x ∈ pre, x.id ≠ id) ∧
        setCommentFirst S id c = pre ++ ⟨r.id, r.restaurantId, c⟩ :: post := by
  intro S
  induction S with
  | nil =>
    intro id c h
    exact absurd h (by simp)
  | cons a rs ih =>
    intro id c h
    by_cases ha : a.id = id
    · refine ⟨[], a, rs, by simp, ha, by simp, ?_⟩
      simp [setCommentFirst, ha]
    · obtain ⟨r, hr, hrid⟩ := h
      have h' : ∃ r ∈ rs, r.id = id := by
        rcases List.mem_cons.mp hr with h1 | h1
        · exact absurd (h1 ▸ hrid) ha
        · exact ⟨r, h1, hrid⟩
      obtain ⟨pre, r', post, hS, hid', hpre, hset⟩ := ih id c h'
      refine ⟨a :: pre, r', post, by rw [hS]; rfl, hid', ?_, ?_⟩
      · intro x hx
        rcases List.mem_cons.mp hx with h1 | h1
        · rw [h1]
          exact ha
        · exact hpre x h1
      · simp [setCommentFirst, ha, hset]

/-- Claim C2: the Update-comment operation (modelled from spec section 4.1,
the source holding only its outline): 404 leaving the state untouched when no
record carries the id; otherwise 200, and the state is `S` with exactly the
found record's `comment` replaced — its id, its `restaurantId` and its
position (the surrounding `pre`/`post` context) unchanged. -/
theorem claim_update_comment (S : List StarredRecord) (id c : String) :
    ((∀ r ∈ S, r.id ≠ id) → updateComment S id c = (404, S)) ∧
    ((∃ r ∈ S, r.id = id) →
      (updateComment S id c).1 = 200 ∧
      ∃ pre r post, S = pre ++ r :: post ∧ r.id = id ∧
        (∀ x ∈ pre, x.id ≠ id) ∧
        (updateComment S id c).2 = pre ++ ⟨r.id, r.restaurantId, c⟩ :: post) := by
  constructor
  · intro h
    have hnone : S.find? (fun r => r.id == id) = none := by
      rw [List.find?_eq_none]
      intro r hr
      simpa using h r hr
    simp [updateComment, hnone]
  · intro hex
    have hsome : (S.find? (fun r => r.id == id)).isSome := by
      rw [List.find?_isSome]
      obtain ⟨r, hr, hrid⟩ := hex
      exact ⟨r, hr, by simpa using hrid⟩
    obtain ⟨sr, hsr⟩ := Option.isSome_iff_exists.mp hsome
    obtain ⟨pre, r, post, hS, hid', hpre, hset⟩ := setCommentFirst_split S id c hex
    refine ⟨by simp [updateComment, hsr], pre, r, post, hS, hid', hpre, ?_⟩
    simp [updateComment, hsr, hset]

/-- Witness for C2: updating the second seed record's comment in the seed
state. -/
theorem claim_update_comment_witness :
    (∃ r ∈ STARRED_RESTAURANTS, r.id = "8df59b21-2152-4f9b-9200-95c19aa88226") ∧
    ((updateComment STARRED_RESTAURANTS "8df59b21-2152-4f9b-9200-95c19aa88226"
        "Even better now").1 = 200 ∧
     ∃ pre r post, STARRED_RESTAURANTS = pre ++ r :: post ∧
       r.id = "8df59b21-2152-4f9b-9200-95c19aa88226" ∧
       (∀ x ∈ pre, x.id ≠ "8df59b21-2152-4f9b-9200-95c19aa88226") ∧
       (updateComment STARRED_RESTAURANTS
         "8df59b21-2152-4f9b-9200-95c19aa88226" "Even better now").2 =
         pre ++ ⟨r.id, r.restaurantId, "Even better now"⟩ :: post) :=
  ⟨by decide,
   (claim_update_comment STARRED_RESTAURANTS
     "8df59b21-2152-4f9b-9200-95c19aa88226" "Even better now").2 (by decide)⟩
